import Mathlib

/-!
Verification of the Teye-Contracts `vision_records` Soroban contract.

The embedding translates `src/contracts/vision_records/src/lib.rs` and
`src/contracts/vision_records/src/versioning.rs` into pure Lean functions
over an explicit `Storage` state.  Addresses are modelled as natural
numbers, Soroban `String` as Lean `String`, `u64`/`u32` machine integers
as `Nat` (with an explicit `% 2^64` where the claims are about overflow),
and the persistent key-value store as total functions from keys to values
updated pointwise.  Fallible entry points return an `Except` result paired
with the post-state; every early `return Err(..)` in the Rust source maps
to returning the untouched input state.

The `rbac` module of the contract is declared (`pub mod rbac;`) and called
from `lib.rs` but its source file is not part of the repository snapshot;
its operations (`defaults_for`, `has_permission`,
`has_delegated_permission`) are modelled from the spec, sections 4.1-4.2.
-/

namespace VisionRecords

/-- On-ledger addresses, abstracted to natural numbers. -/
abbrev Address := Nat

/-- Roles, from `rbac::Role` (spec section 3: `Admin`, `Optometrist`, `Patient`). -/
inductive Role where
  | Admin
  | Optometrist
  | Patient
deriving DecidableEq, Repr

/-- Permissions, from `rbac::Permission` (spec section 3). -/
inductive Permission where
  | ManageUsers
  | WriteRecord
  | ManageAccess
  | SystemAdmin
deriving DecidableEq, Repr

/-- Access levels for record sharing, from `lib.rs` `AccessLevel`. -/
inductive AccessLevel where
  | None
  | Read
  | Write
  | Full
deriving DecidableEq, Repr

/-- Vision record types, from `lib.rs` `RecordType`. -/
inductive RecordType where
  | Examination
  | Prescription
  | Diagnosis
  | Treatment
  | Surgery
  | LabResult
deriving DecidableEq, Repr

/-- Vision record structure, from `lib.rs` `VisionRecord`. -/
structure VisionRecord where
  id : Nat
  patient : Address
  provider : Address
  record_type : RecordType
  data_hash : String
  created_at : Nat
  updated_at : Nat
deriving DecidableEq, Repr

/-- Access grant structure, from `lib.rs` `AccessGrant`. -/
structure AccessGrant where
  patient : Address
  grantee : Address
  level : AccessLevel
  granted_at : Nat
  expires_at : Nat
deriving DecidableEq, Repr

/-- A single version entry, from `versioning.rs` `RecordVersion`. -/
structure RecordVersion where
  record_id : Nat
  version : Nat
  data_hash : String
  modified_by : Address
  modified_at : Nat
deriving DecidableEq, Repr

/-- Comparison of two versions, from `versioning.rs` `RecordComparison`. -/
structure RecordComparison where
  record_id : Nat
  from_version : Nat
  to_version : Nat
  from_data_hash : String
  to_data_hash : String
  from_modified_at : Nat
  to_modified_at : Nat
  changed : Bool
deriving DecidableEq, Repr

/-- Contract errors, from `lib.rs` `ContractError`. -/
inductive ContractError where
  | NotInitialized
  | AlreadyInitialized
  | Unauthorized
  | UserNotFound
  | RecordNotFound
  | InvalidInput
  | AccessDenied
  | Paused
  | VersionNotFound
deriving DecidableEq, Repr

/-- A role delegation entry, from the spec's Delegation data model:
(delegator, delegatee, delegated role, expiry timestamp). -/
structure Delegation where
  delegator : Address
  delegatee : Address
  role : Role
  expires_at : Nat
deriving DecidableEq, Repr

/-- Modelled from the spec: the RBAC store of the missing `rbac` module —
per-user assigned role, explicit grant/revoke permission overrides, and
the list of recorded delegations (spec section 4.2). -/
structure RbacState where
  roleOf : Address → Option Role
  granted : Address → Permission → Bool
  revoked : Address → Permission → Bool
  delegations : List Delegation

/-- Modelled from the spec: `defaults_for(role)` of the missing `rbac`
module, the static Permission Catalog (spec section 4.1): Admin has
SystemAdmin, ManageUsers, WriteRecord, ManageAccess; Optometrist has
WriteRecord; Patient has none. -/
def defaults_for (r : Role) (p : Permission) : Bool :=
  match r with
  | Role.Admin => true
  | Role.Optometrist => p = Permission.WriteRecord
  | Role.Patient => false

/-- Modelled from the spec: `rbac::has_permission` of the missing `rbac`
module — role default with explicit override applied, revoke > grant >
default (spec section 4.2). -/
def has_permission (s : RbacState) (u : Address) (p : Permission) : Bool :=
  if s.revoked u p then false
  else if s.granted u p then true
  else match s.roleOf u with
  | some r => defaults_for r p
  | none => false

/-- Modelled from the spec: `rbac::has_delegated_permission` of the missing
`rbac` module — true iff some non-expired delegation from `owner` to
`actor` carries a role whose default permissions include `p`
(spec section 4.2). -/
def has_delegated_permission (s : RbacState) (now : Nat) (owner actor : Address)
    (p : Permission) : Bool :=
  s.delegations.any fun d =>
    d.delegator = owner && d.delegatee = actor && decide (now < d.expires_at)
      && defaults_for d.role p

/-- `can_write_record` from `lib.rs` lines 94-101: self-authority, else
delegated authority from the provider or blanket system authority. -/
def can_write_record (s : RbacState) (now : Nat) (caller provider : Address) : Bool :=
  if caller = provider then
    has_permission s caller Permission.WriteRecord
  else
    has_delegated_permission s now provider caller Permission.WriteRecord
      || has_permission s caller Permission.SystemAdmin

/-- The whole persistent store of the contract: records by id, version
histories by record id (`REC_HIST` keys), patient record-id lists
(`PAT_REC` keys), access grants by (patient, grantee) (`ACCESS` keys),
the record counter (`REC_CTR`), and the RBAC state. -/
structure Storage where
  rbac : RbacState
  records : Nat → Option VisionRecord
  histories : Nat → List RecordVersion
  patientRecords : Address → List Nat
  grants : Address → Address → Option AccessGrant
  recCounter : Nat

/-- `versioning::get_history`: the stored history, empty if absent. -/
def get_history (s : Storage) (record_id : Nat) : List RecordVersion :=
  s.histories record_id

/-- `versioning::latest_version`: `None` on an empty history, else its length. -/
def latest_version (h : List RecordVersion) : Option Nat :=
  if h.isEmpty then none else some h.length

/-- `versioning::get_version`: linear scan for the first entry with the
requested version number. -/
def get_version (h : List RecordVersion) (version : Nat) : Option RecordVersion :=
  match h with
  | [] => none
  | item :: rest =>
    if item.version = version then some item else get_version rest version

/-- `versioning::append_version`: builds the entry with
`next_version = history.len() + 1`, pushes it at the back, and returns it
together with the updated history. -/
def append_version (h : List RecordVersion) (record_id : Nat) (data_hash : String)
    (modified_by : Address) (modified_at : Nat) : RecordVersion × List RecordVersion :=
  let entry : RecordVersion :=
    { record_id := record_id
      version := h.length + 1
      data_hash := data_hash
      modified_by := modified_by
      modified_at := modified_at }
  (entry, h ++ [entry])

/-- `versioning::compare_versions`: `None` if either version is missing,
else both hashes, both timestamps and the changed flag. -/
def compare_versions (h : List RecordVersion) (record_id from_version to_version : Nat) :
    Option RecordComparison :=
  match get_version h from_version with
  | none => none
  | some f =>
    match get_version h to_version with
    | none => none
    | some t =>
      some { record_id := record_id
             from_version := from_version
             to_version := to_version
             from_data_hash := f.data_hash
             to_data_hash := t.data_hash
             from_modified_at := f.modified_at
             to_modified_at := t.modified_at
             changed := f.data_hash ≠ t.data_hash }

/-- `u64` modulus: the expiry arithmetic in `grant_access` is an unchecked
`u64` addition. -/
def U64_MOD : Nat := 2 ^ 64

/-- `VisionRecordsContract::add_record` (`lib.rs` lines 178-238): empty-hash
check, `can_write_record` gate, counter increment, record write, patient
record-list push, version append.  Returns the new record id with the
post-state; every error branch leaves the store untouched. -/
def add_record (s : Storage) (now : Nat) (caller patient provider : Address)
    (record_type : RecordType) (data_hash : String) :
    Except ContractError Nat × Storage :=
  if data_hash.isEmpty then (Except.error ContractError.InvalidInput, s)
  else if ¬ can_write_record s.rbac now caller provider then
    (Except.error ContractError.Unauthorized, s)
  else
    let record_id := s.recCounter + 1
    let record : VisionRecord :=
      { id := record_id
        patient := patient
        provider := provider
        record_type := record_type
        data_hash := data_hash
        created_at := now
        updated_at := now }
    let h := append_version (s.histories record_id) record_id data_hash caller now
    (Except.ok record_id,
     { s with
        recCounter := record_id
        records := fun k => if k = record_id then some record else s.records k
        patientRecords := fun a =>
          if a = patient then s.patientRecords a ++ [record_id] else s.patientRecords a
        histories := fun k => if k = record_id then h.2 else s.histories k })

/-- `VisionRecordsContract::update_record` (`lib.rs` lines 241-279):
empty-hash check, record lookup, `can_write_record` gate on the record's
provider, then the record's `data_hash`/`updated_at` are rewritten and a
version appended.  Returns the new version number. -/
def update_record (s : Storage) (now : Nat) (caller : Address) (record_id : Nat)
    (data_hash : String) : Except ContractError Nat × Storage :=
  if data_hash.isEmpty then (Except.error ContractError.InvalidInput, s)
  else
    match s.records record_id with
    | none => (Except.error ContractError.RecordNotFound, s)
    | some record =>
      if ¬ can_write_record s.rbac now caller record.provider then
        (Except.error ContractError.Unauthorized, s)
      else
        let record' := { record with data_hash := data_hash, updated_at := now }
        let h := append_version (s.histories record_id) record_id data_hash caller now
        (Except.ok h.1.version,
         { s with
            records := fun k => if k = record_id then some record' else s.records k
            histories := fun k => if k = record_id then h.2 else s.histories k })

/-- `VisionRecordsContract::rollback_record` (`lib.rs` lines 282-319):
SystemAdmin gate, target version lookup, record lookup, then the record's
`data_hash` is set to the target's hash and a fresh version appended.
Returns the new version number. -/
def rollback_record (s : Storage) (now : Nat) (caller : Address) (record_id : Nat)
    (target_version : Nat) : Except ContractError Nat × Storage :=
  if ¬ has_permission s.rbac caller Permission.SystemAdmin then
    (Except.error ContractError.Unauthorized, s)
  else
    match get_version (s.histories record_id) target_version with
    | none => (Except.error ContractError.VersionNotFound, s)
    | some target =>
      match s.records record_id with
      | none => (Except.error ContractError.RecordNotFound, s)
      | some record =>
        let record' := { record with data_hash := target.data_hash, updated_at := now }
        let h := append_version (s.histories record_id) record_id target.data_hash caller now
        (Except.ok h.1.version,
         { s with
            records := fun k => if k = record_id then some record' else s.records k
            histories := fun k => if k = record_id then h.2 else s.histories k })

/-- `VisionRecordsContract::grant_access` (`lib.rs` lines 389-425): the
patient manages their own access, otherwise delegated ManageAccess or
SystemAdmin is required; then `expires_at = now + duration_seconds` is
computed with the source's unchecked `u64` addition (wrapping modulo
`2^64` in a release build) and the grant overwrites any prior one for the
(patient, grantee) pair. -/
def grant_access (s : Storage) (now : Nat) (caller patient grantee : Address)
    (level : AccessLevel) (duration_seconds : Nat) :
    Except ContractError Unit × Storage :=
  let has_perm :=
    if caller = patient then true
    else
      has_delegated_permission s.rbac now patient caller Permission.ManageAccess
        || has_permission s.rbac caller Permission.SystemAdmin
  if ¬ has_perm then (Except.error ContractError.Unauthorized, s)
  else
    let expires_at := (now + duration_seconds) % U64_MOD
    let grant : AccessGrant :=
      { patient := patient
        grantee := grantee
        level := level
        granted_at := now
        expires_at := expires_at }
    (Except.ok (),
     { s with
        grants := fun p g =>
          if p = patient ∧ g = grantee then some grant else s.grants p g })

/-- `VisionRecordsContract::check_access` (`lib.rs` lines 428-438): returns
the stored level while `expires_at > now`, else `AccessLevel::None`; a
pure read, lazy expiry. -/
def check_access (s : Storage) (now : Nat) (patient grantee : Address) : AccessLevel :=
  match s.grants patient grantee with
  | some grant => if grant.expires_at > now then grant.level else AccessLevel.None
  | none => AccessLevel.None

/-- The post-initialization store (`lib.rs` `initialize` plus
`rbac::assign_role(admin, Admin)`): empty records, histories, grants and
patient lists, counter 0, the admin holding the Admin role, no overrides,
no delegations. -/
def init_storage (admin : Address) : Storage :=
  { rbac :=
      { roleOf := fun a => if a = admin then some Role.Admin else none
        granted := fun _ _ => false
        revoked := fun _ _ => false
        delegations := [] }
    records := fun _ => none
    histories := fun _ => []
    patientRecords := fun _ => []
    grants := fun _ _ => none
    recCounter := 0 }

/-! ## Invariants and helper lemmas -/

/-- The audit-trail shape of a history: the version numbers of its entries
are exactly `1..=length`, in order. -/
def goodHistory (h : List RecordVersion) : Prop :=
  h.map (fun e => e.version) = List.range' 1 h.length

/-- Every stored history has the audit-trail shape. -/
def historiesGood (s : Storage) : Prop :=
  ∀ id, goodHistory (s.histories id)

/-- Every stored record has a non-empty history whose last entry carries
the record's live `data_hash`. -/
def recordHistorySync (s : Storage) : Prop :=
  ∀ id r, s.records id = some r →
    s.histories id ≠ [] ∧
    ((s.histories id).getLast?).map (fun e => e.data_hash) = some r.data_hash

theorem goodHistory_nil : goodHistory [] := rfl

theorem goodHistory_append_version (h : List RecordVersion) (rid : Nat)
    (dh : String) (mb ma : Nat) (hg : goodHistory h) :
    goodHistory (append_version h rid dh mb ma).2 := by
  unfold goodHistory append_version at *
  simp only [List.map_append, List.length_append, List.map_cons, List.map_nil,
    List.length_cons, List.length_nil, Nat.zero_add]
  rw [List.range'_1_concat, hg, Nat.add_comm 1 h.length]

theorem get_version_append (h : List RecordVersion) (e : RecordVersion)
    (v : Nat) (t : RecordVersion) (ht : get_version h v = some t) :
    get_version (h ++ [e]) v = some t := by
  induction h with
  | nil => simp [get_version] at ht
  | cons a rest ih =>
    rw [List.cons_append]
    unfold get_version at ht ⊢
    by_cases hav : a.version = v
    · simpa [hav] using ht
    · simp only [hav, if_false] at ht ⊢
      exact ih ht

theorem latest_version_of_ne_nil (h : List RecordVersion) (hne : h ≠ []) :
    latest_version h = some h.length := by
  unfold latest_version
  simp [hne]

theorem historiesGood_init (admin : Address) : historiesGood (init_storage admin) :=
  fun _ => goodHistory_nil

theorem recordHistorySync_init (admin : Address) :
    recordHistorySync (init_storage admin) := by
  intro id r hr
  simp [init_storage] at hr

theorem historiesGood_add_record (s : Storage) (now : Nat)
    (caller patient provider : Address) (rt : RecordType) (dh : String)
    (hg : historiesGood s) :
    historiesGood (add_record s now caller patient provider rt dh).2 := by
  unfold add_record
  split
  · exact hg
  · split
    · exact hg
    · intro id
      by_cases hid : id = s.recCounter + 1
      · simpa [hid] using goodHistory_append_version _ _ _ _ _ (hg (s.recCounter + 1))
      · simpa [hid] using hg id

theorem historiesGood_update_record (s : Storage) (now : Nat) (caller : Address)
    (record_id : Nat) (dh : String) (hg : historiesGood s) :
    historiesGood (update_record s now caller record_id dh).2 := by
  unfold update_record
  split
  · exact hg
  · split
    · exact hg
    · split
      · exact hg
      · intro id
        by_cases hid : id = record_id
        · simpa [hid] using goodHistory_append_version _ _ _ _ _ (hg record_id)
        · simpa [hid] using hg id

theorem historiesGood_rollback_record (s : Storage) (now : Nat) (caller : Address)
    (record_id : Nat) (tv : Nat) (hg : historiesGood s) :
    historiesGood (rollback_record s now caller record_id tv).2 := by
  unfold rollback_record
  split
  · exact hg
  · split
    · exact hg
    · split
      · exact hg
      · intro id
        by_cases hid : id = record_id
        · simpa [hid] using goodHistory_append_version _ _ _ _ _ (hg record_id)
        · simpa [hid] using hg id

theorem recordHistorySync_add_record (s : Storage) (now : Nat)
    (caller patient provider : Address) (rt : RecordType) (dh : String)
    (hs : recordHistorySync s) :
    recordHistorySync (add_record s now caller patient provider rt dh).2 := by
  unfold add_record
  split
  · exact hs
  · split
    · exact hs
    · intro id r hr
      by_cases hid : id = s.recCounter + 1
      · subst hid
        simp only [if_pos rfl] at hr
        obtain rfl := Option.some.inj hr
        simp [append_version, List.getLast?_concat]
      · simp only [if_neg hid] at hr ⊢
        simpa [hid] using hs id r hr

theorem recordHistorySync_update_record (s : Storage) (now : Nat)
    (caller : Address) (record_id : Nat) (dh : String)
    (hs : recordHistorySync s) :
    recordHistorySync (update_record s now caller record_id dh).2 := by
  unfold update_record
  split
  · exact hs
  · split
    · exact hs
    · split
      · exact hs
      · intro id r hr
        by_cases hid : id = record_id
        · subst hid
          simp only [if_pos rfl] at hr
          obtain rfl := Option.some.inj hr
          simp [append_version, List.getLast?_concat]
        · simp only [if_neg hid] at hr ⊢
          simpa [hid] using hs id r hr

theorem recordHistorySync_rollback_record (s : Storage) (now : Nat)
    (caller : Address) (record_id : Nat) (tv : Nat)
    (hs : recordHistorySync s) :
    recordHistorySync (rollback_record s now caller record_id tv).2 := by
  unfold rollback_record
  split
  · exact hs
  · split
    · exact hs
    · split
      · exact hs
      · intro id r hr
        by_cases hid : id = record_id
        · subst hid
          simp only [if_pos rfl] at hr
          obtain rfl := Option.some.inj hr
          simp [append_version, List.getLast?_concat]
        · simp only [if_neg hid] at hr ⊢
          simpa [hid] using hs id r hr

theorem last_version_is_max (h : List RecordVersion) (e : RecordVersion)
    (hg : goodHistory h) (hlast : h.getLast? = some e) :
    ∀ e' ∈ h, e'.version ≤ e.version := by
  intro e' he'
  have hlen : h.length ≠ 0 := by
    intro h0
    rw [List.length_eq_zero.mp h0] at hlast
    simp [List.getLast?] at hlast
  have hv : e.version = h.length := by
    have hmap := congrArg List.getLast? hg
    rw [List.getLast?_map, hlast, List.getLast?_range'] at hmap
    rw [if_neg hlen] at hmap
    have hinj : e.version = 1 + h.length - 1 := Option.some.inj hmap
    omega
  have hm : e'.version ∈ h.map (fun x => x.version) :=
    List.mem_map_of_mem _ he'
  rw [hg, List.mem_range'_1] at hm
  omega

/-! ## Concrete fixtures for witnesses and counterexamples

Address 0 is the admin, address 1 an optometrist provider, address 2 a
patient; record 1 holds hash "h2" with a two-entry history "h1", "h2"
(mirroring the scenario of `tests/versioning_tests.rs`). -/

def wit_record : VisionRecord :=
  { id := 1
    patient := 2
    provider := 1
    record_type := RecordType.Examination
    data_hash := "h2"
    created_at := 100
    updated_at := 200 }

def wit_storage : Storage :=
  { rbac :=
      { roleOf := fun a =>
          if a = 0 then some Role.Admin
          else if a = 1 then some Role.Optometrist
          else if a = 2 then some Role.Patient
          else none
        granted := fun _ _ => false
        revoked := fun _ _ => false
        delegations := [] }
    records := fun k => if k = 1 then some wit_record else none
    histories := fun k =>
      if k = 1 then
        [{ record_id := 1, version := 1, data_hash := "h1", modified_by := 1, modified_at := 100 },
         { record_id := 1, version := 2, data_hash := "h2", modified_by := 1, modified_at := 200 }]
      else []
    patientRecords := fun a => if a = 2 then [1] else []
    grants := fun _ _ => none
    recCounter := 1 }

/-! ## Claims -/

/-- C1: for every record id with a non-empty version history,
`latest_version` equals the length of `get_history`, and the version
numbers in the history are exactly `1..=length` in order (strictly
increasing by 1, no gaps, no reuse); `append_version` always assigns
`next version = current length + 1`.  Stated as: `append_version` assigns
`length + 1`; the audit-trail shape holds in the initial store and is
preserved by every operation that touches histories (`add_record`,
`update_record`, `rollback_record`); and on any store with that shape a
non-empty history has `latest_version = some length` and version list
`1..=length`. -/
theorem audit_trail_invariant :
    (∀ (h : List RecordVersion) (rid : Nat) (dh : String) (mb ma : Nat),
        (append_version h rid dh mb ma).1.version = h.length + 1 ∧
        (append_version h rid dh mb ma).2 = h ++ [(append_version h rid dh mb ma).1]) ∧
    (∀ admin : Address, historiesGood (init_storage admin)) ∧
    (∀ s now caller patient provider rt dh, historiesGood s →
        historiesGood (add_record s now caller patient provider rt dh).2) ∧
    (∀ s now caller rid dh, historiesGood s →
        historiesGood (update_record s now caller rid dh).2) ∧
    (∀ s now caller rid tv, historiesGood s →
        historiesGood (rollback_record s now caller rid tv).2) ∧
    (∀ s id, historiesGood s → get_history s id ≠ [] →
        latest_version (get_history s id) = some (get_history s id).length ∧
        (get_history s id).map (fun e => e.version) =
          List.range' 1 (get_history s id).length) :=
  ⟨fun _ _ _ _ _ => ⟨rfl, rfl⟩,
   historiesGood_init,
   fun s now caller patient provider rt dh hg =>
     historiesGood_add_record s now caller patient provider rt dh hg,
   fun s now caller rid dh hg =>
     historiesGood_update_record s now caller rid dh hg,
   fun s now caller rid tv hg =>
     historiesGood_rollback_record s now caller rid tv hg,
   fun _s id hg hne => ⟨latest_version_of_ne_nil _ hne, hg id⟩⟩

/-- C10 (implicit): every stored record has a non-empty history whose
highest-numbered entry carries the record's live `data_hash`; the
invariant holds initially and is preserved by `add_record`,
`update_record` and `rollback_record` (each writes the record and appends
the same hash in the same call); on any store that also has the
audit-trail shape, the last history entry is the highest-numbered one and
its hash is the record's. -/
theorem record_matches_latest_history_entry :
    (∀ admin : Address, recordHistorySync (init_storage admin)) ∧
    (∀ s now caller patient provider rt dh, recordHistorySync s →
        recordHistorySync (add_record s now caller patient provider rt dh).2) ∧
    (∀ s now caller rid dh, recordHistorySync s →
        recordHistorySync (update_record s now caller rid dh).2) ∧
    (∀ s now caller rid tv, recordHistorySync s →
        recordHistorySync (rollback_record s now caller rid tv).2) ∧
    (∀ s id r e, historiesGood s → recordHistorySync s →
        s.records id = some r → (s.histories id).getLast? = some e →
        r.data_hash = e.data_hash ∧ ∀ e' ∈ s.histories id, e'.version ≤ e.version) := by
  refine ⟨recordHistorySync_init,
    fun s now caller patient provider rt dh hs =>
      recordHistorySync_add_record s now caller patient provider rt dh hs,
    fun s now caller rid dh hs =>
      recordHistorySync_update_record s now caller rid dh hs,
    fun s now caller rid tv hs =>
      recordHistorySync_rollback_record s now caller rid tv hs,
    fun s id r e hg hs hr hlast => ⟨?_, last_version_is_max _ _ (hg id) hlast⟩⟩
  have hsync := (hs id r hr).2
  rw [hlast] at hsync
  exact (Option.some.inj hsync).symm

/-- C6: `can_write_record(caller, provider)` follows the tiered rule: when
`caller == provider` it returns true iff `has_permission(caller,
WriteRecord)`; otherwise it returns true iff
`has_delegated_permission(provider, caller, WriteRecord)` or
`has_permission(caller, SystemAdmin)`. -/
theorem can_write_record_tiered (rbac : RbacState) (now : Nat)
    (caller provider : Address) :
    (caller = provider →
      (can_write_record rbac now caller provider = true ↔
        has_permission rbac caller Permission.WriteRecord = true)) ∧
    (caller ≠ provider →
      (can_write_record rbac now caller provider = true ↔
        has_delegated_permission rbac now provider caller Permission.WriteRecord = true
          ∨ has_permission rbac caller Permission.SystemAdmin = true)) := by
  unfold can_write_record
  constructor
  · intro hc
    rw [if_pos hc]
  · intro hc
    rw [if_neg hc]
    simp [Bool.or_eq_true]

/-- C7: `check_access(patient, grantee)` returns `AccessLevel.None`
whenever no grant entry exists for the pair or whenever
`now >= expires_at` of the stored grant (the stale entry remaining in
storage), and returns the grant's stored level whenever a grant exists
with `now < expires_at`. -/
theorem check_access_lazy_expiry (s : Storage) (now : Nat)
    (patient grantee : Address) :
    (s.grants patient grantee = none →
      check_access s now patient grantee = AccessLevel.None) ∧
    (∀ g, s.grants patient grantee = some g →
      (g.expires_at ≤ now →
        check_access s now patient grantee = AccessLevel.None) ∧
      (now < g.expires_at →
        check_access s now patient grantee = g.level)) := by
  unfold check_access
  constructor
  · intro hnone
    rw [hnone]
  · intro g hg
    rw [hg]
    constructor
    · intro hle
      show (if g.expires_at > now then g.level else AccessLevel.None) = AccessLevel.None
      rw [if_neg (by omega)]
    · intro hlt
      show (if g.expires_at > now then g.level else AccessLevel.None) = g.level
      rw [if_pos hlt]

/-- C9: `compare_versions(record_id, from, to)` returns `none` iff either
requested version is missing from the history; otherwise it returns a
`RecordComparison` carrying both versions' data hashes and `modified_at`
timestamps, with `changed` true iff the two data hashes differ. -/
theorem compare_versions_spec (h : List RecordVersion) (rid fv tv : Nat) :
    (compare_versions h rid fv tv = none ↔
      (get_version h fv = none ∨ get_version h tv = none)) ∧
    (∀ c, compare_versions h rid fv tv = some c →
      ∃ f t, get_version h fv = some f ∧ get_version h tv = some t ∧
        c.record_id = rid ∧ c.from_version = fv ∧ c.to_version = tv ∧
        c.from_data_hash = f.data_hash ∧ c.to_data_hash = t.data_hash ∧
        c.from_modified_at = f.modified_at ∧ c.to_modified_at = t.modified_at ∧
        (c.changed = true ↔ f.data_hash ≠ t.data_hash)) := by
  unfold compare_versions
  cases hf : get_version h fv with
  | none => simp
  | some f =>
    cases ht : get_version h tv with
    | none => simp
    | some t =>
      constructor
      · simp
      · intro c hc
        obtain rfl := (Option.some.inj hc).symm
        exact ⟨f, t, rfl, rfl, rfl, rfl, rfl, rfl, rfl, rfl, rfl,
          by simp [decide_eq_true_iff]⟩

/-- C2: after a successful `rollback_record(caller, id, v)`, the live
record's `data_hash` equals `get_version(id, v).data_hash`, and
`latest_version(id)` equals the history length before the call plus 1 —
rollback appends a new version carrying the historical hash and never
deletes, truncates, or renumbers existing history entries (the old
history is a prefix of the new one). -/
theorem rollback_appends_historical_hash (s : Storage) (now : Nat)
    (caller : Address) (record_id tv res : Nat)
    (hok : (rollback_record s now caller record_id tv).1 = Except.ok res) :
    ((rollback_record s now caller record_id tv).2.records record_id).map
        (fun r => r.data_hash) =
      (get_version ((rollback_record s now caller record_id tv).2.histories record_id)
          tv).map (fun e => e.data_hash) ∧
    ((rollback_record s now caller record_id tv).2.records record_id).isSome = true ∧
    latest_version ((rollback_record s now caller record_id tv).2.histories record_id) =
      some ((s.histories record_id).length + 1) ∧
    ((rollback_record s now caller record_id tv).2.histories record_id).take
        (s.histories record_id).length = s.histories record_id ∧
    ((rollback_record s now caller record_id tv).2.histories record_id).length =
      (s.histories record_id).length + 1 := by
  unfold rollback_record at hok ⊢
  split at hok
  · simp at hok
  · next hperm =>
    rw [if_neg hperm]
    split at hok
    · simp at hok
    · next target htv =>
      split at hok
      · simp at hok
      · next record hrec =>
        have happ := get_version_append (s.histories record_id)
          { record_id := record_id
            version := (s.histories record_id).length + 1
            data_hash := target.data_hash
            modified_by := caller
            modified_at := now }
          tv target htv
        refine ⟨?_, ?_, ?_, ?_, ?_⟩
        · simp [append_version, happ]
        · simp
        · simp [append_version, latest_version]
        · simp [append_version]
        · simp [append_version]

/-- C2 witness: a concrete admin rollback of record 1 to version 1 in the
two-version fixture store. -/
theorem rollback_appends_historical_hash_witness :
    ((rollback_record wit_storage 300 0 1 1).2.records 1).map
        (fun r => r.data_hash) =
      (get_version ((rollback_record wit_storage 300 0 1 1).2.histories 1) 1).map
        (fun e => e.data_hash) ∧
    ((rollback_record wit_storage 300 0 1 1).2.records 1).isSome = true ∧
    latest_version ((rollback_record wit_storage 300 0 1 1).2.histories 1) =
      some ((wit_storage.histories 1).length + 1) ∧
    ((rollback_record wit_storage 300 0 1 1).2.histories 1).take
        (wit_storage.histories 1).length = wit_storage.histories 1 ∧
    ((rollback_record wit_storage 300 0 1 1).2.histories 1).length =
      (wit_storage.histories 1).length + 1 :=
  rollback_appends_historical_hash wit_storage 300 0 1 1 3 (by rfl)

/-- C5: when an authorization check fails, no storage is mutated: a caller
for whom `can_write_record` fails gets `Unauthorized` from `update_record`
with the whole store (record, history, counter) unchanged, and an
`add_record` call that returns `Unauthorized` leaves the counter and the
patient-record lists (indeed the whole store) unchanged. -/
theorem unauthorized_no_mutation (s : Storage) (now : Nat) (caller : Address)
    (record_id : Nat) (dh : String) (patient provider : Address)
    (rt : RecordType) (r : VisionRecord)
    (hdh : dh.isEmpty = false)
    (hr : s.records record_id = some r)
    (hcw : can_write_record s.rbac now caller r.provider = false) :
    update_record s now caller record_id dh =
      (Except.error ContractError.Unauthorized, s) ∧
    ((add_record s now caller patient provider rt dh).1 =
        Except.error ContractError.Unauthorized →
      (add_record s now caller patient provider rt dh).2.recCounter = s.recCounter ∧
      (add_record s now caller patient provider rt dh).2.patientRecords =
        s.patientRecords ∧
      (add_record s now caller patient provider rt dh).2 = s) := by
  constructor
  · unfold update_record
    rw [if_neg (by simp [hdh])]
    simp only [hr]
    rw [if_pos (by simp [hcw])]
  · intro hfail
    unfold add_record at hfail ⊢
    rw [if_neg (by simp [hdh])] at hfail ⊢
    by_cases hw : can_write_record s.rbac now caller provider = true
    · rw [if_neg (by simp [hw])] at hfail
      simp at hfail
    · rw [if_pos (by simp [hw])]
      exact ⟨rfl, rfl, rfl⟩

/-- C5 witness: the patient (address 2), who is neither the provider, nor
delegated, nor an admin, attempts `update_record` and `add_record` on
record 1. -/
theorem unauthorized_no_mutation_witness :
    (update_record wit_storage 300 2 1 "h3" =
      (Except.error ContractError.Unauthorized, wit_storage)) ∧
    ((add_record wit_storage 300 2 2 1 RecordType.Examination "h3").1 =
        Except.error ContractError.Unauthorized →
      (add_record wit_storage 300 2 2 1 RecordType.Examination "h3").2.recCounter =
        wit_storage.recCounter ∧
      (add_record wit_storage 300 2 2 1 RecordType.Examination "h3").2.patientRecords =
        wit_storage.patientRecords ∧
      (add_record wit_storage 300 2 2 1 RecordType.Examination "h3").2 = wit_storage) :=
  unauthorized_no_mutation wit_storage 300 2 1 "h3" 2 1 RecordType.Examination
    wit_record (by rfl) (by rfl) (by rfl)

/-- C8: for every successful `update_record` and `rollback_record` call,
the stored record's `data_hash` and `updated_at` are the only fields that
change: `id`, `patient`, `provider`, `record_type` and `created_at` are
equal before and after the call. -/
theorem record_identity_immutable (s : Storage) (now : Nat) (caller : Address)
    (record_id : Nat) (dh : String) (tv res : Nat) :
    (∀ r r', s.records record_id = some r →
      (update_record s now caller record_id dh).1 = Except.ok res →
      (update_record s now caller record_id dh).2.records record_id = some r' →
      r'.id = r.id ∧ r'.patient = r.patient ∧ r'.provider = r.provider ∧
      r'.record_type = r.record_type ∧ r'.created_at = r.created_at ∧
      r'.data_hash = dh ∧ r'.updated_at = now) ∧
    (∀ r r', s.records record_id = some r →
      (rollback_record s now caller record_id tv).1 = Except.ok res →
      (rollback_record s now caller record_id tv).2.records record_id = some r' →
      r'.id = r.id ∧ r'.patient = r.patient ∧ r'.provider = r.provider ∧
      r'.record_type = r.record_type ∧ r'.created_at = r.created_at ∧
      r'.updated_at = now) := by
  constructor
  · intro r r' hr hok hr'
    revert hr'
    unfold update_record at hok ⊢
    split at hok
    · simp at hok
    · next hdh' =>
      split at hok
      · simp at hok
      · next record hrec =>
        rw [hr] at hrec
        obtain rfl := Option.some.inj hrec
        split at hok
        · simp at hok
        · next hcw' =>
          intro hr'
          simp only [not_not] at hdh' hcw'
          simp [hdh', hcw'] at hr'
          subst hr'
          exact ⟨rfl, rfl, rfl, rfl, rfl, rfl, rfl⟩
  · intro r r' hr hok hr'
    revert hr'
    unfold rollback_record at hok ⊢
    split at hok
    · simp at hok
    · next hperm' =>
      split at hok
      · simp at hok
      · next target htv =>
        split at hok
        · simp at hok
        · next record hrec =>
          rw [hr] at hrec
          obtain rfl := Option.some.inj hrec
          intro hr'
          simp only [not_not] at hperm'
          simp [hperm', htv] at hr'
          subst hr'
          exact ⟨rfl, rfl, rfl, rfl, rfl, rfl⟩

/-- An RBAC state used to refute C3 as stated: address 7 is a Patient with
an explicit custom grant of `SystemAdmin` and nothing else, as produced by
`grant_custom_permission(7, SystemAdmin)` on a registered patient. -/
def sysadmin_only_rbac : RbacState :=
  { roleOf := fun a => if a = 7 then some Role.Patient else none
    granted := fun a p => if a = 7 ∧ p = Permission.SystemAdmin then true else false
    revoked := fun _ _ => false
    delegations := [] }

/-- C3 counterexample: a user holding `SystemAdmin` but not `WriteRecord`
fails the `can_write_record` check in the `caller == provider` case, so
"every can_write_record check with u as caller succeeds (including
caller == provider)" is false. -/
theorem sysadmin_self_write_fails :
    has_permission sysadmin_only_rbac 7 Permission.SystemAdmin = true ∧
    can_write_record sysadmin_only_rbac 0 7 7 = false :=
  ⟨rfl, rfl⟩

/-- C3 amended: if `has_permission(u, SystemAdmin)` is true, then
`can_write_record` with `u` as caller succeeds for every provider other
than `u` itself, and the grant-management authorization check in
`grant_access` with `u` as caller succeeds for every patient; in the
`caller == provider` case `can_write_record` instead requires
`has_permission(u, WriteRecord)`. -/
theorem sysadmin_authorization_monotone (s : Storage) (now : Nat) (u : Address)
    (hsa : has_permission s.rbac u Permission.SystemAdmin = true) :
    (∀ provider, provider ≠ u → can_write_record s.rbac now u provider = true) ∧
    (∀ patient grantee level dur,
      (grant_access s now u patient grantee level dur).1 = Except.ok ()) ∧
    (∀ provider, u = provider →
      can_write_record s.rbac now u provider =
        has_permission s.rbac u Permission.WriteRecord) := by
  refine ⟨?_, ?_, ?_⟩
  · intro provider hne
    unfold can_write_record
    rw [if_neg (fun h => hne h.symm)]
    simp [hsa]
  · intro patient grantee level dur
    unfold grant_access
    by_cases hcp : u = patient
    · rw [if_neg (by simp [hcp])]
    · rw [if_neg (by simp [hcp, hsa])]
  · intro provider heq
    unfold can_write_record
    rw [if_pos heq]

/-- C3 amended witness: the admin (address 0) of the fixture store writes
for provider 1 and grants access on behalf of patient 2. -/
theorem sysadmin_authorization_monotone_witness :
    (∀ provider, provider ≠ 0 →
      can_write_record wit_storage.rbac 300 0 provider = true) ∧
    (∀ patient grantee level dur,
      (grant_access wit_storage 300 0 patient grantee level dur).1 = Except.ok ()) ∧
    (∀ provider, 0 = provider →
      can_write_record wit_storage.rbac 300 0 provider =
        has_permission wit_storage.rbac 0 Permission.WriteRecord) :=
  sysadmin_authorization_monotone wit_storage 300 0 (by rfl)

/-- C4: evaluation of `grant_access` at the overflow input. At
`now = u64::MAX` with `duration_seconds = 1` the authorized call succeeds
and stores a grant whose `expires_at` has wrapped to 0 — it does not
return `InvalidInput`, and the grant storage is mutated (it was empty for
the pair before the call). -/
theorem grant_access_overflow_wraps :
    wit_storage.grants 2 3 = none ∧
    (grant_access wit_storage (U64_MOD - 1) 2 2 3 AccessLevel.Read 1).1 =
      Except.ok () ∧
    (grant_access wit_storage (U64_MOD - 1) 2 2 3 AccessLevel.Read 1).1 ≠
      Except.error ContractError.InvalidInput ∧
    ((grant_access wit_storage (U64_MOD - 1) 2 2 3 AccessLevel.Read 1).2.grants 2 3).map
        (fun g => g.expires_at) = some 0 := by
  refine ⟨rfl, rfl, ?_, rfl⟩
  intro h
  rw [show (grant_access wit_storage (U64_MOD - 1) 2 2 3 AccessLevel.Read 1).1 =
    Except.ok () from rfl] at h
  exact Except.noConfusion h

end VisionRecords
